import Mathlib

/-!
Verification of the offline-first encrypted sync engine of MyDayWas.

Shallow embedding of:
  - `src/src/services/walletService.ts` (LocalStorageService segment):
    `saveEntry`, `getEntries`, `updateEntry`, `getUnsyncedEntries`, `markAsSynced`
  - `src/src/hooks/useEnhancedJSC.ts`: `submitEntry`, `syncPendingEntries`, `loadEntries`
  - `src/src/services/japanSmartChain.ts`: `writeEntry`, `readEntries`
  - `src/src/services/encryptionService.ts`: `symmetricEncrypt` / `symmetricDecrypt`
    (AES-GCM and base64 framing; the WebCrypto AES primitive is an external
    collaborator and is therefore a parameter of the embedding)
  - `src/unnamed/part_003`: the XOR codec variant (`createSimpleKey`,
    `xorEncrypt`, `xorDecrypt`), fully concrete.

JavaScript strings are modelled as lists of UTF-16 code units (`List Nat`)
where byte-level behaviour matters (the codecs), and as Lean `String`s
elsewhere.  `btoa`/`atob` are modelled by a concrete base64 codec;
`Array.prototype.sort` (stable since ES2019) is modelled by the stable
`List.insertionSort`.
-/

namespace MDW

/-! ## Data model -/

inductive Sentiment : Type
| positive
| negative
| neutral
deriving DecidableEq, Repr

/-- The encryption bundle stored on a local entry.  The TypeScript interface
`LocalDiaryEntry` declares the field `encryptedContent`, but the objects the
code actually stores are `EncryptionResult`s whose field is named
`encryptedData`; the embedding follows the runtime objects. -/
structure EncryptionData : Type where
  encryptedData : String
  encryptionKey : String
  signature : String
  timestamp : Nat
deriving DecidableEq, Repr

/-- `LocalDiaryEntry` of the LocalStorageService segment of walletService.ts. -/
structure LocalDiaryEntry : Type where
  id : String
  date : String
  content : String
  sentiment : Sentiment
  encrypted : Bool
  transactionHash : Option String
  blockchainStored : Bool
  encryptionData : Option EncryptionData
  createdAt : Nat
  syncedAt : Option Nat
deriving DecidableEq, Repr

/-- `JSCDiaryEntry` of japanSmartChain.ts.  `transactionHash` is declared
optional there and `readEntries` never sets it. -/
structure JSCDiaryEntry : Type where
  id : String
  user : String
  encryptedContent : String
  sentiment : Sentiment
  timestamp : Nat
  transactionHash : Option String
deriving DecidableEq, Repr

/-- `DiaryEntry` of useEnhancedJSC.ts (the UI-facing merged entry). -/
structure DiaryEntry : Type where
  id : String
  date : String
  content : String
  sentiment : Sentiment
  encrypted : Bool
  transactionHash : Option String
  blockchainStored : Bool
deriving DecidableEq, Repr

/-! ## String helpers (JS `String.prototype.includes`) -/

/-- `leadsWith p s` is true when `p` is an initial segment of `s`. -/
def leadsWith : List Char → List Char → Bool
  | [], _ => true
  | _ :: _, [] => false
  | p :: ps, c :: cs => p == c && leadsWith ps cs

/-- `containsSub p s`: some suffix of `s` starts with `p`. -/
def containsSub (p : List Char) : List Char → Bool
  | [] => leadsWith p []
  | c :: rest => leadsWith p (c :: rest) || containsSub p rest

/-- JS `s.includes(pat)`. -/
def strIncludes (s pat : String) : Bool := containsSub pat.toList s.toList

/-! ## Date arithmetic

`new Date(ms).toISOString().split('T')[0]` and `new Date("YYYY-MM-DD").getTime()`
are modelled by the standard civil-calendar conversion (proleptic Gregorian,
days relative to 1970-01-01). -/

/-- Days since the epoch to `(year, month, day)`, for non-negative day counts. -/
def civilFromDays (z : Nat) : Nat × Nat × Nat :=
  let z' := z + 719468
  let era := z' / 146097
  let doe := z' % 146097
  let yoe := (doe - doe / 1460 + doe / 36524 - doe / 146096) / 365
  let y := yoe + era * 400
  let doy := doe - (365 * yoe + yoe / 4 - yoe / 100)
  let mp := (5 * doy + 2) / 153
  let d := doy - (153 * mp + 2) / 5 + 1
  let m := if mp < 10 then mp + 3 else mp - 9
  (if m ≤ 2 then y + 1 else y, m, d)

def padZeros (w : Nat) (s : String) : String :=
  String.mk (List.replicate (w - s.length) '0') ++ s

/-- The date part of `toISOString` for an epoch-milliseconds timestamp. -/
def isoDate (ms : Nat) : String :=
  match civilFromDays (ms / 86400000) with
  | (y, m, d) => padZeros 4 (toString y) ++ "-" ++ padZeros 2 (toString m) ++ "-" ++ padZeros 2 (toString d)

/-- `(year, month, day)` to days since the epoch (can be negative). -/
def daysFromCivil (y m d : Nat) : Int :=
  let y' : Int := if m ≤ 2 then (y : Int) - 1 else (y : Int)
  let era := y' / 400
  let yoe := y' - era * 400
  let doy : Int := (153 * ((m : Int) + (if 2 < m then -3 else 9)) + 2) / 5 + (d : Int) - 1
  let doe := yoe * 365 + yoe / 4 - yoe / 100 + doy
  era * 146097 + doe - 719468

/-- Split a char list on '-' (the shape of `s.split("-")`). -/
def splitDashAux : List Char → List Char → List (List Char)
  | [], acc => [acc.reverse]
  | c :: rest, acc =>
    if c = '-' then acc.reverse :: splitDashAux rest [] else splitDashAux rest (c :: acc)

/-- Digits-only numeric parse of a char list (`Number` on a digit string). -/
def digitsToNat (l : List Char) : Option Nat :=
  if l ≠ [] ∧ l.all Char.isDigit then
    some (l.foldl (fun n c => 10 * n + (c.toNat - 48)) 0)
  else none

/-- `new Date("YYYY-MM-DD").getTime()` (UTC midnight, milliseconds). -/
def parseDateMs (s : String) : Int :=
  match splitDashAux s.toList [] with
  | [ys, ms, ds] =>
    daysFromCivil ((digitsToNat ys).getD 0) ((digitsToNat ms).getD 0) ((digitsToNat ds).getD 0) *
      86400000
  | _ => 0

/-! ## LocalStorageService (walletService.ts, third segment) -/

/-- `saveEntry`: `entries.unshift(entry)` then write back. -/
def saveEntry (store : List LocalDiaryEntry) (entry : LocalDiaryEntry) : List LocalDiaryEntry :=
  entry :: store

/-- `getEntries`: returns the stored list in storage order. -/
def getEntries (store : List LocalDiaryEntry) : List LocalDiaryEntry := store

/-- `updateEntry`: merges the partial update into the first entry whose id
matches (`findIndex`). -/
def updateEntry (store : List LocalDiaryEntry) (entryId : String)
    (upd : LocalDiaryEntry → LocalDiaryEntry) : List LocalDiaryEntry :=
  match store with
  | [] => []
  | e :: rest => if e.id = entryId then upd e :: rest else e :: updateEntry rest entryId upd

/-- `getUnsyncedEntries`: entries with `!entry.blockchainStored`. -/
def getUnsyncedEntries (store : List LocalDiaryEntry) : List LocalDiaryEntry :=
  store.filter (fun e => !e.blockchainStored)

/-- `markAsSynced`: sets `blockchainStored`, `transactionHash`, `syncedAt`. -/
def markAsSynced (store : List LocalDiaryEntry) (entryId : String)
    (transactionHash : String) (now : Nat) : List LocalDiaryEntry :=
  updateEntry store entryId (fun e =>
    { e with blockchainStored := true, transactionHash := some transactionHash,
             syncedAt := some now })

/-! ## base64 (`btoa` / `atob`)

`btoa` maps a JS string whose code units are all ≤ 255 to base64 and throws
otherwise; `atob` is its inverse and throws on malformed input.  Both are
modelled concretely over lists of code units. -/

/-- Char code of the base64 alphabet at index `i < 64`. -/
def b64char (i : Nat) : Nat :=
  if i < 26 then i + 65
  else if i < 52 then i + 71
  else if i < 62 then i - 4
  else if i = 62 then 43 else 47

/-- Index of a char code in the base64 alphabet, `none` if not in it. -/
def b64index (c : Nat) : Option Nat :=
  if 65 ≤ c ∧ c ≤ 90 then some (c - 65)
  else if 97 ≤ c ∧ c ≤ 122 then some (c - 71)
  else if 48 ≤ c ∧ c ≤ 57 then some (c + 4)
  else if c = 43 then some 62
  else if c = 47 then some 63
  else none

/-- base64-encode a byte list ('=' is char code 61). -/
def b64encode : List Nat → List Nat
  | b1 :: b2 :: b3 :: rest =>
    b64char (b1 / 4) :: b64char (b1 % 4 * 16 + b2 / 16) ::
      b64char (b2 % 16 * 4 + b3 / 64) :: b64char (b3 % 64) :: b64encode rest
  | [b1, b2] =>
    [b64char (b1 / 4), b64char (b1 % 4 * 16 + b2 / 16), b64char (b2 % 16 * 4), 61]
  | [b1] => [b64char (b1 / 4), b64char (b1 % 4 * 16), 61, 61]
  | [] => []

/-- base64-decode; `none` models `atob` throwing on malformed input. -/
def b64decode : List Nat → Option (List Nat)
  | c1 :: c2 :: c3 :: c4 :: rest =>
    match b64index c1, b64index c2 with
    | some i1, some i2 =>
      if c3 = 61 then
        if c4 = 61 ∧ rest = [] then some [i1 * 4 + i2 / 16] else none
      else
        match b64index c3 with
        | some i3 =>
          if c4 = 61 then
            if rest = [] then some [i1 * 4 + i2 / 16, i2 % 16 * 16 + i3 / 4] else none
          else
            match b64index c4 with
            | some i4 =>
              (b64decode rest).map
                (fun tl => (i1 * 4 + i2 / 16) :: (i2 % 16 * 16 + i3 / 4) :: (i3 % 4 * 64 + i4) :: tl)
            | none => none
        | none => none
    | _, _ => none
  | [] => some []
  | _ => none

/-- `btoa`: succeeds exactly when every code unit is a byte. -/
def btoa (l : List Nat) : Option (List Nat) :=
  if l.all (· < 256) then some (b64encode l) else none

/-- `atob`. -/
def atob (l : List Nat) : Option (List Nat) := b64decode l

/-! ## XOR codec variant (`src/unnamed/part_003`) -/

/-- 32-bit signed wraparound (`hash & hash` in JS). -/
def toInt32 (n : Int) : Int := (n + 2147483648) % 4294967296 - 2147483648

/-- One step of the JS string hash: `hash = ((hash << 5) - hash) + char`
followed by truncation to 32 bits. -/
def hashStep (h : Int) (c : Nat) : Int := toInt32 (toInt32 (h * 32) - h + (c : Int))

/-- Hex digit char code (lowercase), as in `Number.prototype.toString(16)`. -/
def hexDigitChar (n : Nat) : Nat := if n < 10 then n + 48 else n + 87

def toHexAux : Nat → Nat → List Nat → List Nat
  | 0, _, acc => acc
  | fuel + 1, n, acc =>
    if n = 0 then acc else toHexAux fuel (n / 16) (hexDigitChar (n % 16) :: acc)

/-- `n.toString(16)` as a list of char codes (`n` itself is enough fuel for
the division-by-16 recursion). -/
def toHex (n : Nat) : List Nat :=
  if n = 0 then [48] else toHexAux n n []

/-- `createSimpleKey`: hash the signature, `Math.abs(hash).toString(16)`
padded to 8 chars, repeated 4 times, truncated to 32 chars. -/
def createSimpleKey (signature : List Nat) : List Nat :=
  let hash := signature.foldl hashStep 0
  let hex := toHex hash.natAbs
  let padded := List.replicate (8 - hex.length) 48 ++ hex
  (padded ++ padded ++ padded ++ padded).take 32

/-- XOR each code unit with `key[i % key.length]`. -/
def xorKeyAux (key : List Nat) (i : Nat) : List Nat → List Nat
  | [] => []
  | d :: rest => (d ^^^ key.getD (i % key.length) 0) :: xorKeyAux key (i + 1) rest

def xorWithKey (data key : List Nat) : List Nat := xorKeyAux key 0 data

/-- `xorEncrypt`: XOR then `btoa` (which throws when a XORed unit exceeds 255). -/
def xorEncrypt (data key : List Nat) : Option (List Nat) := btoa (xorWithKey data key)

/-- `xorDecrypt`: `atob` then the same XOR loop. -/
def xorDecrypt (encryptedData key : List Nat) : Option (List Nat) :=
  (atob encryptedData).map (fun d => xorWithKey d key)

/-! ## AES-GCM codec (`src/src/services/encryptionService.ts`)

The WebCrypto primitive `crypto.subtle.encrypt/decrypt` with AES-GCM is an
external collaborator, passed to the embedding as the functions `aesEnc` /
`aesDec`.  `AesFailure.operationError` models WebCrypto's `OperationError`
(authentication failure). -/

inductive AesFailure : Type
| operationError
| otherError (msg : String)
deriving DecidableEq, Repr

/-- `symmetricEncrypt`: AES-GCM over the first 32 key chars, then
`btoa(iv ++ ciphertext)`.  `iv` and the primitive's output live in
`Uint8Array`s, whose stores truncate to bytes (`% 256`), so `btoa` cannot
fail here and the result is total. -/
def symmetricEncrypt (aesEnc : List Nat → List Nat → List Nat → List Nat)
    (key : List Nat) (iv : List Nat) (dataBuffer : List Nat) : List Nat :=
  let encrypted := aesEnc (key.take 32) iv dataBuffer
  let combined := (iv ++ encrypted).map (· % 256)
  b64encode combined

/-- `symmetricDecrypt`: base64-decode, check the 12-byte IV is present, split
and call the AES-GCM primitive; error strings follow the source's throw sites
(the base64 and too-short throws are re-wrapped by the outer catch since their
`name` is not `OperationError`). -/
def symmetricDecrypt (aesDec : List Nat → List Nat → List Nat → Except AesFailure (List Nat))
    (key : List Nat) (encryptedData : List Nat) : Except String (List Nat) :=
  match atob encryptedData with
  | none => Except.error "Symmetric decryption failed: Invalid base64 encrypted data"
  | some combined =>
    if combined.length < 12 then
      Except.error "Symmetric decryption failed: Encrypted data too short - missing IV"
    else
      match aesDec (key.take 32) (combined.take 12) (combined.drop 12) with
      | Except.ok m => Except.ok m
      | Except.error AesFailure.operationError =>
          Except.error "Decryption failed: Wrong key or corrupted data"
      | Except.error (AesFailure.otherError msg) =>
          Except.error ("Symmetric decryption failed: " ++ msg)

/-! ## JapanSmartChainService (`src/src/services/japanSmartChain.ts`) -/

/-- An error thrown by ethers during `addEntry`/`tx.wait`; `reason` models
`error.reason`. -/
structure ChainError : Type where
  message : String
  reason : Option String
deriving DecidableEq, Repr

/-- The catch clause of `writeEntry`, mapping raw errors to user-facing
messages by substring tests on `error.message`. -/
def classifyWriteError (e : ChainError) : String :=
  if strIncludes e.message "user rejected" then "Transaction was cancelled by user"
  else if strIncludes e.message "insufficient funds" then "Insufficient JETH balance for transaction"
  else if strIncludes e.message "execution reverted" then
    "Transaction failed: " ++ e.reason.getD "Contract execution reverted"
  else
    "Failed to submit entry: " ++ (if e.message = "" then "Unknown error" else e.message)

/-- The inner `try` block of `writeEntry`'s pause check: `isPaused()` may
itself throw (`pauseStatus = none`), and when it returns `true` the block
throws "Contract is currently paused.". -/
def checkPauseBlock (pauseStatus : Option Bool) : Except String Unit :=
  match pauseStatus with
  | none => Except.error "Could not check pause status"
  | some true => Except.error "Contract is currently paused. Please try again later."
  | some false => Except.ok ()

/-- Gas estimation, `addEntry` submission and `tx.wait`, with the catch-side
classification; the second component records that the write transaction was
attempted. -/
def runWriteTx (txResult : Except ChainError String) : Except String String × Bool :=
  match txResult with
  | Except.ok h => (Except.ok h, true)
  | Except.error e => (Except.error (classifyWriteError e), true)

/-- `writeEntry`.  The pause check sits inside its own `try/catch` whose catch
clause only logs a warning, so both outcomes of `checkPauseBlock` fall through
to the transaction. -/
def writeEntry (connected : Bool) (pauseStatus : Option Bool)
    (txResult : Except ChainError String) : Except String String × Bool :=
  if !connected then
    (Except.error "Wallet not connected or contract not initialized", false)
  else
    match checkPauseBlock pauseStatus with
    | Except.ok _ => runWriteTx txResult
    | Except.error _ => runWriteTx txResult

/-- A raw entry as returned by the contract's `getUserEntries`. -/
structure RawChainEntry : Type where
  id : Nat
  user : String
  encryptedContent : String
  sentimentCode : Nat
  timestamp : Nat
deriving DecidableEq, Repr

def decodeSentiment (n : Nat) : Sentiment :=
  if n = 0 then Sentiment.positive else if n = 1 then Sentiment.negative else Sentiment.neutral

/-- `readEntries`: maps contract entries to `JSCDiaryEntry`, converting the
timestamp to milliseconds.  Note: the mapper never populates
`transactionHash`, so every ledger-derived entry carries `none` there. -/
def readEntries (entries : List RawChainEntry) : List JSCDiaryEntry :=
  entries.map (fun e =>
    { id := toString e.id, user := e.user, encryptedContent := e.encryptedContent,
      sentiment := decodeSentiment e.sentimentCode, timestamp := e.timestamp * 1000,
      transactionHash := none })

/-! ## submitEntry (`src/src/hooks/useEnhancedJSC.ts`) -/

structure SubmitResult : Type where
  success : Bool
  error : Option String
deriving DecidableEq, Repr

/-- The catch clause of `submitEntry`: a rejection-looking message returns a
cancelled result without saving; any other error saves a local, not
blockchain-stored entry and reports a retryable success. -/
def submitEntryCatch (msg : String) (store : List LocalDiaryEntry) (content : String)
    (sentiment : Sentiment) (nowMs : Nat) : SubmitResult × List LocalDiaryEntry :=
  if strIncludes msg "user rejected" || strIncludes msg "cancelled" then
    ({ success := false, error := some "Transaction was cancelled by user" }, store)
  else
    let localEntry : LocalDiaryEntry :=
      { id := toString nowMs, date := isoDate nowMs, content := content,
        sentiment := sentiment, encrypted := true, transactionHash := none,
        blockchainStored := false, encryptionData := none, createdAt := nowMs,
        syncedAt := none }
    ({ success := true,
       error := some ("Entry saved locally. Blockchain error: " ++ msg ++ ". Use Sync Now to retry.") },
     saveEntry store localEntry)

/-- `submitEntry`.  The encryption step (`encryptData`) and the ledger write
(`writeEntry`) involve the wallet and network collaborators; their outcomes
are passed in as `encOutcome` and `writeOutcome` (error values are thrown
messages).  Returns the result object together with the updated local store. -/
def submitEntry (isConnected isOnline : Bool) (encOutcome : Except String EncryptionData)
    (writeOutcome : Except String String) (store : List LocalDiaryEntry)
    (content : String) (sentiment : Sentiment) (nowMs : Nat) :
    SubmitResult × List LocalDiaryEntry :=
  if !isConnected then ({ success := false, error := some "Wallet not connected" }, store)
  else if !isOnline then
    ({ success := false,
       error := some "You are offline. Please connect to the internet to submit entries." }, store)
  else
    match encOutcome with
    | Except.error msg => submitEntryCatch msg store content sentiment nowMs
    | Except.ok encryptionResult =>
      match writeOutcome with
      | Except.error msg => submitEntryCatch msg store content sentiment nowMs
      | Except.ok transactionHash =>
        let localEntry : LocalDiaryEntry :=
          { id := toString nowMs, date := isoDate nowMs, content := content,
            sentiment := sentiment, encrypted := true,
            transactionHash := some transactionHash, blockchainStored := true,
            encryptionData := some encryptionResult, createdAt := nowMs,
            syncedAt := some nowMs }
        ({ success := true, error := none }, saveEntry store localEntry)

/-! ## syncPendingEntries (`src/src/hooks/useEnhancedJSC.ts`) -/

/-- Per-entry outcome of the sync pipeline (get signer, encrypt when the entry
has no `encryptionData`, submit).  `enc` is the freshly derived encryption
bundle when one was produced (it is persisted even if the submission then
fails). -/
inductive SyncOutcome : Type
| success (enc : Option EncryptionData) (txHash : String)
| failure (enc : Option EncryptionData) (msg : String)

def SyncOutcome.isSuccess : SyncOutcome → Bool
  | SyncOutcome.success _ _ => true
  | SyncOutcome.failure _ _ => false

/-- `localStorageService.updateEntry(entry.id, { encryptionData })` when the
entry had none and the pipeline derived one. -/
def persistEnc (store : List LocalDiaryEntry) (e : LocalDiaryEntry)
    (enc : Option EncryptionData) : List LocalDiaryEntry :=
  match e.encryptionData, enc with
  | none, some ed => updateEntry store e.id (fun x => { x with encryptionData := some ed })
  | _, _ => store

/-- The `for (const entry of unsyncedEntries)` loop: each entry is attempted
inside its own try/catch; failures append one message to `errors` and the
loop continues. -/
def syncLoop (oracle : LocalDiaryEntry → SyncOutcome) (now : Nat) :
    List LocalDiaryEntry → List LocalDiaryEntry → Nat → List String →
    List LocalDiaryEntry × Nat × List String
  | [], store, syncedCount, errors => (store, syncedCount, errors)
  | e :: rest, store, syncedCount, errors =>
    match oracle e with
    | SyncOutcome.success enc h =>
      syncLoop oracle now rest (markAsSynced (persistEnc store e enc) e.id h now)
        (syncedCount + 1) errors
    | SyncOutcome.failure enc msg =>
      syncLoop oracle now rest (persistEnc store e enc) syncedCount
        (errors ++ ["Entry from " ++ e.date ++ ": " ++ msg])

structure SyncResult : Type where
  success : Bool
  synced : Nat
  error : Option String
deriving DecidableEq, Repr

/-- `syncPendingEntries`: snapshot `getUnsyncedEntries`, run the loop, and
report the count of successes (the per-entry failure reasons are joined into
the error message). -/
def syncPendingEntries (isConnected isOnline : Bool)
    (oracle : LocalDiaryEntry → SyncOutcome) (store : List LocalDiaryEntry) (now : Nat) :
    SyncResult × List LocalDiaryEntry :=
  if !isConnected || !isOnline then
    ({ success := false, synced := 0, error := some "Not connected or offline" }, store)
  else
    match syncLoop oracle now (getUnsyncedEntries store) store 0 [] with
    | (store', syncedCount, errors) =>
      if errors.length > 0 then
        ({ success := decide (0 < syncedCount), synced := syncedCount,
           error := some ("Synced " ++ toString syncedCount ++ " entries. Errors: " ++
             String.intercalate "; " errors) }, store')
      else
        ({ success := true, synced := syncedCount, error := none }, store')

/-! ## loadEntries (`src/src/hooks/useEnhancedJSC.ts`) -/

/-- Conversion of a local entry to the UI `DiaryEntry` shape (used both for
the initial local view and when appending unmatched local entries in the
merge). -/
def toUIEntry (l : LocalDiaryEntry) : DiaryEntry :=
  { id := l.id, date := l.date, content := l.content, sentiment := l.sentiment,
    encrypted := l.encrypted, transactionHash := l.transactionHash,
    blockchainStored := l.blockchainStored }

/-- The `DiaryEntry` built from a ledger entry in `loadEntries`. -/
def mkLedgerUI (e : JSCDiaryEntry) (content : String) : DiaryEntry :=
  { id := e.id, date := isoDate e.timestamp, content := content,
    sentiment := e.sentiment, encrypted := true,
    transactionHash := e.transactionHash, blockchainStored := true }

/-- The collaborators used by `decryptData`: `deriveKey` models the SHA-256
hex key derivation from a signature, `symDec` the symmetric decryption of a
ciphertext with a key (`none` = throws). -/
structure LoadDeps : Type where
  deriveKey : String → String
  symDec : String → String → Option String

/-- `decryptData`'s key handling: use the per-wallet cached key when present,
otherwise derive it from the stored signature and cache it.  Returns the
decryption result and the key now cached (caching happens before the
decryption attempt, so it survives a failed decrypt). -/
def decryptDataK (deps : LoadDeps) (cache : Option String) (encryptedData signature : String) :
    Option String × String :=
  let key := match cache with
    | some k => k
    | none => deps.deriveKey signature
  (deps.symDec encryptedData key, key)

/-- The `jscEntries.map` of `loadEntries`: for each ledger entry, look up a
local entry by `transactionHash` equality, and when it has an encryption
bundle attempt decryption (failures keep the "[Encrypted Entry]"
placeholder).  The key cache is threaded left to right. -/
def processLedger (deps : LoadDeps) (localEntries : List LocalDiaryEntry) :
    Option String → List JSCDiaryEntry → List DiaryEntry × Option String
  | cache, [] => ([], cache)
  | cache, e :: rest =>
    let step : DiaryEntry × Option String :=
      match localEntries.find? (fun l => l.transactionHash == e.transactionHash) with
      | some l =>
        match l.encryptionData with
        | some ed =>
          match decryptDataK deps cache e.encryptedContent ed.signature with
          | (res, key) => (mkLedgerUI e (res.getD "[Encrypted Entry]"), some key)
        | none => (mkLedgerUI e "[Encrypted Entry]", cache)
      | none => (mkLedgerUI e "[Encrypted Entry]", cache)
    match step with
    | (d, cache') =>
      match processLedger deps localEntries cache' rest with
      | (ds, cacheEnd) => (d :: ds, cacheEnd)

/-- The comparator of the final sort: `(a, b) => new Date(b.date).getTime() -
new Date(a.date).getTime()`, i.e. newest date first. -/
def newestFirst (a b : DiaryEntry) : Prop := parseDateMs b.date ≤ parseDateMs a.date

instance : DecidableRel newestFirst :=
  fun a b => Int.decLe (parseDateMs b.date) (parseDateMs a.date)

instance : IsTotal DiaryEntry newestFirst :=
  ⟨fun a b => (Int.le_total (parseDateMs b.date) (parseDateMs a.date)).imp id id⟩

instance : IsTrans DiaryEntry newestFirst :=
  ⟨fun _ _ _ hab hbc => le_trans hbc hab⟩

/-- The merge of `loadEntries`: ledger-derived entries first, then every
local entry whose `transactionHash` matches no ledger-derived entry, sorted
stably by date descending (`Array.prototype.sort` is stable; the stable
`insertionSort` models it). -/
def mergeEntries (deps : LoadDeps) (localEntries : List LocalDiaryEntry)
    (jscEntries : List JSCDiaryEntry) (cache : Option String) :
    List DiaryEntry × Option String :=
  match processLedger deps localEntries cache jscEntries with
  | (decryptedEntries, cache') =>
    let merged := decryptedEntries ++
      (localEntries.filter (fun l =>
        (decryptedEntries.find? (fun b => b.transactionHash == l.transactionHash)).isNone)).map
        toUIEntry
    (List.insertionSort newestFirst merged, cache')

/-- `loadEntries` for one owner.  The store is read but never written; the
ledger read's outcome is `ledger` (`none` = `readEntries` or `getSigner`
threw, in which case the local view stands).  Returns the entry list shown
to the caller and the key cache after the call. -/
def loadEntries (deps : LoadDeps) (isOnline jscConnected : Bool)
    (ledger : Option (List RawChainEntry)) (store : List LocalDiaryEntry)
    (cache : Option String) : List DiaryEntry × Option String :=
  let uiEntries := (getEntries store).map toUIEntry
  if isOnline && jscConnected then
    match ledger with
    | some raws => mergeEntries deps store (readEntries raws) cache
    | none => (uiEntries, cache)
  else (uiEntries, cache)

/-- Modelled from the spec: the dedup rule of §4.4 — "the stale LocalOnly
duplicate must be suppressed by matching on ciphertext".  A local entry is
kept exactly when its stored ciphertext (`encryptionData.encryptedData`)
equals no ledger entry's ciphertext; this is the merge the claim C1 says
`loadEntries` performs, to be compared with `mergeEntries` above. -/
def specMergeByCiphertext (decryptedEntries : List DiaryEntry)
    (localEntries : List LocalDiaryEntry) (jscEntries : List JSCDiaryEntry) :
    List DiaryEntry :=
  decryptedEntries ++
    (localEntries.filter (fun l =>
      !(jscEntries.any (fun e =>
        match l.encryptionData with
        | some ed => ed.encryptedData == e.encryptedContent
        | none => false)))).map toUIEntry

/-! ## The spec's Entry invariant, and concrete sample data -/

/-- The §3 invariant, in the runtime vocabulary: an entry carries a ledger
reference (`transactionHash`) exactly when it is `Confirmed`
(`blockchainStored`). -/
def hashInvariant (x : LocalDiaryEntry) : Prop :=
  x.transactionHash.isSome = x.blockchainStored

instance : DecidablePred hashInvariant :=
  fun x => instDecidableEqBool x.transactionHash.isSome x.blockchainStored

/-- Trivial collaborator instance for concrete evaluations: key derivation is
the identity and symmetric decryption always fails (so ledger entries keep
the "[Encrypted Entry]" placeholder). -/
def deps₀ : LoadDeps := { deriveKey := fun s => s, symDec := fun _ _ => none }

def edCipher : EncryptionData :=
  { encryptedData := "CIPHER", encryptionKey := "K1", signature := "SIG1", timestamp := 0 }

def edOther : EncryptionData :=
  { encryptedData := "OTHER", encryptionKey := "K2", signature := "SIG2", timestamp := 0 }

/-- A crash-recovery stale duplicate: confirmed on the ledger (its ciphertext
"CIPHER" is on chain) but the confirmation was never persisted locally, so it
has no `transactionHash` and is still not `blockchainStored`. -/
def staleLocal : LocalDiaryEntry :=
  { id := "10", date := "2025-01-10", content := "feeling okay",
    sentiment := Sentiment.neutral, encrypted := true, transactionHash := none,
    blockchainStored := false, encryptionData := some edCipher,
    createdAt := 1736467200005, syncedAt := none }

/-- A genuinely local-only entry whose ciphertext "OTHER" matches no ledger
entry. -/
def otherLocal : LocalDiaryEntry :=
  { id := "11", date := "2025-01-10", content := "another note",
    sentiment := Sentiment.positive, encrypted := true, transactionHash := none,
    blockchainStored := false, encryptionData := some edOther,
    createdAt := 1736467200006, syncedAt := none }

/-- The on-chain copy of `staleLocal`'s ciphertext. -/
def ledgerRaw : RawChainEntry :=
  { id := 7, user := "0xowner", encryptedContent := "CIPHER", sentimentCode := 2,
    timestamp := 1736467200 }

/-- Two ledger entries written the same day, the second later than the first. -/
def rawOld : RawChainEntry :=
  { id := 1, user := "0xowner", encryptedContent := "C1", sentimentCode := 0,
    timestamp := 1736467201 }

def rawNew : RawChainEntry :=
  { id := 2, user := "0xowner", encryptedContent := "C2", sentimentCode := 0,
    timestamp := 1736467500 }

/-! ## Helper lemmas: base64 and XOR -/

theorem b64index_char : ∀ i, i < 64 → b64index (b64char i) = some i := by decide

theorem b64char_ne_pad : ∀ i, i < 64 → b64char i ≠ 61 := by decide

theorem b64decode_encode (l : List Nat) (h : ∀ b ∈ l, b < 256) :
    b64decode (b64encode l) = some l := by
  induction l using b64encode.induct with
  | case1 b1 b2 b3 rest ih =>
    have hb1 : b1 < 256 := h b1 (by simp)
    have hb2 : b2 < 256 := h b2 (by simp)
    have hb3 : b3 < 256 := h b3 (by simp)
    have e1 : b64index (b64char (b1 / 4)) = some (b1 / 4) := b64index_char _ (by omega)
    have e2 : b64index (b64char (b1 % 4 * 16 + b2 / 16)) = some (b1 % 4 * 16 + b2 / 16) :=
      b64index_char _ (by omega)
    have e3 : b64index (b64char (b2 % 16 * 4 + b3 / 64)) = some (b2 % 16 * 4 + b3 / 64) :=
      b64index_char _ (by omega)
    have e4 : b64index (b64char (b3 % 64)) = some (b3 % 64) := b64index_char _ (by omega)
    have n3 : b64char (b2 % 16 * 4 + b3 / 64) ≠ 61 := b64char_ne_pad _ (by omega)
    have n4 : b64char (b3 % 64) ≠ 61 := b64char_ne_pad _ (by omega)
    have hrest := ih (fun b hb => h b (by simp [hb]))
    simp only [b64encode, b64decode, e1, e2, e3, e4, if_neg n3, if_neg n4, hrest,
      Option.map_some', Option.some.injEq, List.cons.injEq, and_true, true_and, and_self]
    omega
  | case2 b1 b2 =>
    have hb1 : b1 < 256 := h b1 (by simp)
    have hb2 : b2 < 256 := h b2 (by simp)
    have e1 : b64index (b64char (b1 / 4)) = some (b1 / 4) := b64index_char _ (by omega)
    have e2 : b64index (b64char (b1 % 4 * 16 + b2 / 16)) = some (b1 % 4 * 16 + b2 / 16) :=
      b64index_char _ (by omega)
    have e3 : b64index (b64char (b2 % 16 * 4)) = some (b2 % 16 * 4) := b64index_char _ (by omega)
    have n3 : b64char (b2 % 16 * 4) ≠ 61 := b64char_ne_pad _ (by omega)
    simp only [b64encode, b64decode, e1, e2, e3, if_neg n3, if_true, and_self,
      Option.some.injEq, List.cons.injEq, and_true, true_and]
    omega
  | case3 b1 =>
    have hb1 : b1 < 256 := h b1 (by simp)
    have e1 : b64index (b64char (b1 / 4)) = some (b1 / 4) := b64index_char _ (by omega)
    have e2 : b64index (b64char (b1 % 4 * 16)) = some (b1 % 4 * 16) := b64index_char _ (by omega)
    simp only [b64encode, b64decode, e1, e2, if_true, and_self, Option.some.injEq,
      List.cons.injEq, and_true, true_and]
    omega
  | case4 => rfl

theorem xorKeyAux_invol (key : List Nat) :
    ∀ (i : Nat) (data : List Nat), xorKeyAux key i (xorKeyAux key i data) = data := by
  intro i data
  induction data generalizing i with
  | nil => rfl
  | cons d rest ih =>
    simp only [xorKeyAux, ih, List.cons.injEq, and_true]
    rw [Nat.xor_assoc, Nat.xor_self, Nat.xor_zero]

theorem xorWithKey_invol (data key : List Nat) : xorWithKey (xorWithKey data key) key = data :=
  xorKeyAux_invol key 0 data

theorem map_mod256 (l : List Nat) (h : ∀ b ∈ l, b < 256) : l.map (· % 256) = l := by
  induction l with
  | nil => rfl
  | cons b rest ih =>
    simp only [List.map_cons, List.cons.injEq]
    exact ⟨Nat.mod_eq_of_lt (h b (by simp)),
      ih (fun x hx => h x (by simp [hx]))⟩

/-! ## Claims C6 and C7: codec round trip and tamper behaviour -/

/-- C6: decrypting the result of encrypting yields the original plaintext.
Part 1: the XOR codec with a `createSimpleKey`-derived key, whenever
`xorEncrypt` succeeds (it throws on code units above 255).  Part 2: the
AES-GCM codec's framing (`base64(iv ++ ct)`, 12-byte IV split, first 32 key
chars), given the WebCrypto collaborator's round-trip contract for byte
outputs. -/
theorem C6_theorem :
    (∀ (data signature ct : List Nat),
      xorEncrypt data (createSimpleKey signature) = some ct →
      xorDecrypt ct (createSimpleKey signature) = some data) ∧
    (∀ (aesEnc : List Nat → List Nat → List Nat → List Nat)
      (aesDec : List Nat → List Nat → List Nat → Except AesFailure (List Nat))
      (key iv dataBuffer : List Nat),
      iv.length = 12 → (∀ b ∈ iv, b < 256) →
      (∀ b ∈ aesEnc (key.take 32) iv dataBuffer, b < 256) →
      aesDec (key.take 32) iv (aesEnc (key.take 32) iv dataBuffer) = Except.ok dataBuffer →
      symmetricDecrypt aesDec key (symmetricEncrypt aesEnc key iv dataBuffer) =
        Except.ok dataBuffer) := by
  constructor
  · intro data signature ct h
    unfold xorEncrypt btoa at h
    by_cases hall : (xorWithKey data (createSimpleKey signature)).all (· < 256)
    · rw [if_pos hall] at h
      have hct : ct = b64encode (xorWithKey data (createSimpleKey signature)) :=
        (Option.some.injEq _ _ ▸ h).symm
      have hbound : ∀ b ∈ xorWithKey data (createSimpleKey signature), b < 256 := by
        intro b hb
        simpa using List.all_eq_true.mp hall b hb
      unfold xorDecrypt atob
      rw [hct, b64decode_encode _ hbound, Option.map_some', xorWithKey_invol]
    · rw [if_neg hall] at h
      exact absurd h (by simp)
  · intro aesEnc aesDec key iv dataBuffer hiv hivb hencb hdec
    have hcomb : ∀ b ∈ iv ++ aesEnc (key.take 32) iv dataBuffer, b < 256 := by
      intro b hb
      rcases List.mem_append.mp hb with h' | h'
      · exact hivb b h'
      · exact hencb b h'
    have hlen : ¬((iv ++ aesEnc (key.take 32) iv dataBuffer).length < 12) := by
      simp [List.length_append, hiv]
    simp only [symmetricEncrypt, symmetricDecrypt, atob, map_mod256 _ hcomb,
      b64decode_encode _ hcomb, if_neg hlen]
    rw [show (12 : Nat) = iv.length from hiv.symm, List.take_left, List.drop_left, hdec]

/-- C7 counterexample: the claim demands that every one-bit modification of a
ciphertext makes decrypt fail.  For the XOR codec: encrypting "hi" (code
units 104, 105) under the key derived from signature "a" (code unit 97)
yields the base64 ciphertext "WFk=" (87, 70, 107, 61); flipping one bit of
its first character (87 XOR 4 = 83, giving "SFk=") makes `xorDecrypt`
succeed and silently return "xi" (120, 105), a plaintext different from the
original. -/
theorem C7_counterexample :
    xorEncrypt [104, 105] (createSimpleKey [97]) = some [87, 70, 107, 61] ∧
    87 ^^^ 4 = 83 ∧
    xorDecrypt [83, 70, 107, 61] (createSimpleKey [97]) = some [120, 105] ∧
    [120, 105] ≠ [104, 105] := by decide

/-- C7 amended: for the AES-GCM codec an authentication failure of the
WebCrypto primitive (its `OperationError`) surfaces as the wrong-key /
corrupted-data error, which differs from the error produced by a ciphertext
that is not valid base64; the XOR codec variant performs no integrity check
at all — `xorDecrypt` succeeds on any ciphertext that base64-decodes,
returning whatever the XOR produces. -/
theorem C7_theorem :
    (∀ (aesDec : List Nat → List Nat → List Nat → Except AesFailure (List Nat))
      (key ct combined : List Nat),
      atob ct = some combined → ¬(combined.length < 12) →
      aesDec (key.take 32) (combined.take 12) (combined.drop 12) =
        Except.error AesFailure.operationError →
      symmetricDecrypt aesDec key ct =
        Except.error "Decryption failed: Wrong key or corrupted data") ∧
    (∀ (aesDec : List Nat → List Nat → List Nat → Except AesFailure (List Nat))
      (key ct : List Nat), atob ct = none →
      symmetricDecrypt aesDec key ct =
        Except.error "Symmetric decryption failed: Invalid base64 encrypted data") ∧
    ("Decryption failed: Wrong key or corrupted data" ≠
      "Symmetric decryption failed: Invalid base64 encrypted data") ∧
    (∀ (ct key d : List Nat), atob ct = some d →
      xorDecrypt ct key = some (xorWithKey d key)) := by
  refine ⟨?_, ?_, by decide, ?_⟩
  · intro aesDec key ct combined hatob hlen hdec
    simp only [symmetricDecrypt, hatob, if_neg hlen, hdec]
  · intro aesDec key ct hatob
    simp only [symmetricDecrypt, hatob]
  · intro ct key d hatob
    simp only [xorDecrypt, hatob, Option.map_some']

/-! ## Claims C2, C3: createEntry failure handling -/

/-- C2 counterexample: `submitEntry` called while the browser is offline
(`isOnline = false`) returns the offline error and persists nothing — the
store stays empty, so the entry IS discarded, contrary to the claim that
every createEntry during unavailability yields a persisted LocalOnly entry. -/
theorem C2_counterexample :
    submitEntry true false (Except.ok edCipher) (Except.ok "0xh") [] "feeling okay"
        Sentiment.neutral 0
      = ({ success := false,
           error := some "You are offline. Please connect to the internet to submit entries." },
         []) := by decide

/-- C2 amended: when submission to the ledger fails while online with a
non-rejection error (which is what a paused or unreachable ledger produces),
the entry is persisted locally with the submitted plaintext, no ledger
reference and `blockchainStored = false`, and the call reports a retryable
success; but a call while the browser is offline is rejected up front and
persists nothing. -/
theorem C2_theorem (enc : EncryptionData) (msg : String) (store : List LocalDiaryEntry)
    (content : String) (sentiment : Sentiment) (nowMs : Nat)
    (h1 : strIncludes msg "user rejected" = false)
    (h2 : strIncludes msg "cancelled" = false) :
    (submitEntry true true (Except.ok enc) (Except.error msg) store content sentiment nowMs).2
      = { id := toString nowMs, date := isoDate nowMs, content := content,
          sentiment := sentiment, encrypted := true, transactionHash := none,
          blockchainStored := false, encryptionData := none, createdAt := nowMs,
          syncedAt := none } :: store ∧
    (submitEntry true true (Except.ok enc) (Except.error msg) store content sentiment nowMs).1.success
      = true ∧
    (submitEntry true false (Except.ok enc) (Except.error msg) store content sentiment nowMs).2
      = store := by
  refine ⟨?_, ?_, rfl⟩ <;>
    simp [submitEntry, submitEntryCatch, h1, h2, saveEntry]

/-- C3 counterexample: a ledger write rejected by the user (`writeEntry`
throws "Transaction was cancelled by user") produces the cancelled result,
but no LocalOnly entry survives: the store is unchanged (still empty), so the
already-encrypted content is lost, contrary to the claim's survival clause. -/
theorem C3_counterexample :
    submitEntry true true (Except.ok edCipher)
        (Except.error "Transaction was cancelled by user") [] "hello" Sentiment.neutral 0
      = ({ success := false, error := some "Transaction was cancelled by user" }, []) := by decide

/-- C3 amended: a rejection (an error whose message contains "user rejected"
or "cancelled", whether from the signature request during encryption or from
the transaction) yields the distinct cancelled result — unlike non-rejection
failures, which report a retryable success — but the store is left unchanged:
no LocalOnly entry survives the rejection. -/
theorem C3_theorem (enc : EncryptionData) (msg : String) (store : List LocalDiaryEntry)
    (content : String) (sentiment : Sentiment) (nowMs : Nat)
    (h : (strIncludes msg "user rejected" || strIncludes msg "cancelled") = true) :
    submitEntry true true (Except.ok enc) (Except.error msg) store content sentiment nowMs
      = ({ success := false, error := some "Transaction was cancelled by user" }, store) ∧
    (∀ writeO, submitEntry true true (Except.error msg) writeO store content sentiment nowMs
      = ({ success := false, error := some "Transaction was cancelled by user" }, store)) ∧
    (∀ msg' : String, strIncludes msg' "user rejected" = false →
      strIncludes msg' "cancelled" = false →
      (submitEntry true true (Except.ok enc) (Except.error msg') store content sentiment
          nowMs).1
        ≠ { success := false, error := some "Transaction was cancelled by user" }) := by
  refine ⟨?_, fun writeO => ?_, fun msg' h1 h2 => ?_⟩
  · simp [submitEntry, submitEntryCatch, h]
  · simp [submitEntry, submitEntryCatch, h]
  · simp [submitEntry, submitEntryCatch, h1, h2]

/-! ## Claim C5: pause short-circuit in writeEntry -/

/-- C5: the claim requires `writeEntry` on a paused ledger to fail before any
write is attempted.  In the source, the "Contract is currently paused" error
is thrown inside the pause check's own `try` and swallowed by its `catch`
(which only warns), so with the contract connected and `isPaused()` returning
`true` the write transaction is still attempted — and can even succeed. -/
theorem C5_theorem :
    checkPauseBlock (some true)
      = Except.error "Contract is currently paused. Please try again later." ∧
    writeEntry true (some true) (Except.ok "0xabc") = (Except.ok "0xabc", true) ∧
    (writeEntry true (some true)
        (Except.error { message := "network request failed", reason := none })).2 = true :=
  ⟨rfl, rfl, rfl⟩

/-! ## Claim C4: partial-batch resilience of syncPendingEntries -/

theorem filter_split_length {α : Type} (p : α → Bool) (l : List α) :
    (l.filter p).length + (l.filter (fun a => !(p a))).length = l.length := by
  induction l with
  | nil => rfl
  | cons a rest ih =>
    cases hp : p a <;> simp [List.filter_cons, hp, ← ih] <;> omega

theorem syncLoop_counts (oracle : LocalDiaryEntry → SyncOutcome) (now : Nat) :
    ∀ (es store : List LocalDiaryEntry) (count : Nat) (errs : List String),
      (syncLoop oracle now es store count errs).2.1
        = count + (es.filter (fun e => (oracle e).isSuccess)).length ∧
      (syncLoop oracle now es store count errs).2.2.length
        = errs.length + (es.filter (fun e => !(oracle e).isSuccess)).length := by
  intro es
  induction es with
  | nil => intro store count errs; simp [syncLoop]
  | cons e rest ih =>
    intro store count errs
    cases ho : oracle e with
    | success enc h =>
      have := ih (markAsSynced (persistEnc store e enc) e.id h now) (count + 1) errs
      simp only [syncLoop, ho, List.filter_cons, SyncOutcome.isSuccess, Bool.not_true,
        if_true, if_false, this.1, this.2]
      constructor
      all_goals simp
      all_goals omega
    | failure enc msg =>
      have := ih (persistEnc store e enc)
        count (errs ++ ["Entry from " ++ e.date ++ ": " ++ msg])
      simp only [syncLoop, ho, List.filter_cons, SyncOutcome.isSuccess, Bool.not_false,
        if_true, if_false, this.1, this.2]
      constructor
      all_goals simp
      all_goals omega

/-- C4: the batch loop of `syncPendingEntries` attempts every unsynced entry:
the reported `synced` count equals the number of entries whose submission
pipeline succeeded, the failure-reason list carries exactly one message per
failing entry, and the two together account for the whole batch — a failing
entry never aborts or skips the remaining ones. -/
theorem C4_theorem (oracle : LocalDiaryEntry → SyncOutcome)
    (store : List LocalDiaryEntry) (now : Nat) :
    (syncPendingEntries true true oracle store now).1.synced
      = ((getUnsyncedEntries store).filter (fun e => (oracle e).isSuccess)).length ∧
    (syncLoop oracle now (getUnsyncedEntries store) store 0 []).2.2.length
      = ((getUnsyncedEntries store).filter (fun e => !(oracle e).isSuccess)).length ∧
    (syncPendingEntries true true oracle store now).1.synced
        + (syncLoop oracle now (getUnsyncedEntries store) store 0 []).2.2.length
      = (getUnsyncedEntries store).length := by
  have main := syncLoop_counts oracle now (getUnsyncedEntries store) store 0 []
  simp only [List.length_nil, Nat.zero_add] at main
  have hsynced : (syncPendingEntries true true oracle store now).1.synced
      = (syncLoop oracle now (getUnsyncedEntries store) store 0 []).2.1 := by
    unfold syncPendingEntries
    rcases hr : syncLoop oracle now (getUnsyncedEntries store) store 0 [] with ⟨store', rest⟩
    rcases rest with ⟨count, errs⟩
    by_cases he : errs.length > 0 <;> simp [hr, he]
  have hsplit := filter_split_length (fun e => (oracle e).isSuccess) (getUnsyncedEntries store)
  refine ⟨?_, ?_, ?_⟩
  · rw [hsynced, main.1]
  · rw [main.2]
  · rw [hsynced, main.1, main.2]; omega

/-! ## Helper lemmas: the loadEntries merge -/

theorem processLedger_snd_some (deps : LoadDeps) (locals : List LocalDiaryEntry) (k : String) :
    ∀ es : List JSCDiaryEntry, (processLedger deps locals (some k) es).2 = some k := by
  intro es
  induction es with
  | nil => rfl
  | cons e rest ih =>
    simp only [processLedger]
    cases hf : locals.find? (fun l => l.transactionHash == e.transactionHash) with
    | none => simp [hf, ih]
    | some l =>
      cases hl : l.encryptionData with
      | none => simp [hf, hl, ih]
      | some ed => simp [hf, hl, decryptDataK, ih]

theorem processLedger_fst_restart (deps : LoadDeps) (locals : List LocalDiaryEntry) :
    ∀ (es : List JSCDiaryEntry) (cache : Option String),
      (processLedger deps locals ((processLedger deps locals cache es).2) es).1
        = (processLedger deps locals cache es).1 := by
  intro es cache
  cases cache with
  | some k => rw [processLedger_snd_some]
  | none =>
    induction es with
    | nil => rfl
    | cons e rest ih =>
      cases hf : locals.find? (fun l => l.transactionHash == e.transactionHash) with
      | none =>
        simp only [processLedger, hf]
        rcases hr : processLedger deps locals none rest with ⟨ds, cEnd⟩
        have := ih
        rw [hr] at this
        simp only [hr]
        cases hq : processLedger deps locals cEnd rest with
        | mk ds' cEnd' =>
          rw [hq] at this
          rw [this]
      | some l =>
        cases hl : l.encryptionData with
        | none =>
          simp only [processLedger, hf, hl]
          rcases hr : processLedger deps locals none rest with ⟨ds, cEnd⟩
          have := ih
          rw [hr] at this
          simp only [hr]
          cases hq : processLedger deps locals cEnd rest with
          | mk ds' cEnd' =>
            rw [hq] at this
            rw [this]
        | some ed =>
          simp only [processLedger, hf, hl, decryptDataK]
          rcases hr : processLedger deps locals (some (deps.deriveKey ed.signature)) rest with
            ⟨ds, cEnd⟩
          have hsnd : cEnd = some (deps.deriveKey ed.signature) := by
            have := processLedger_snd_some deps locals (deps.deriveKey ed.signature) rest
            rw [hr] at this
            exact this
          simp only [hr, hsnd]

/-- C9: the merge of `loadEntries` is idempotent and deterministic: calling
it twice for the same owner with no intervening writes to the store or the
ledger (same `store` and `ledger` inputs, the key cache carried over from the
first call) yields the same ordered entry list both times. -/
theorem C9_theorem (deps : LoadDeps) (isOnline jscConnected : Bool)
    (ledger : Option (List RawChainEntry)) (store : List LocalDiaryEntry)
    (cache : Option String) :
    (loadEntries deps isOnline jscConnected ledger store
        ((loadEntries deps isOnline jscConnected ledger store cache).2)).1
      = (loadEntries deps isOnline jscConnected ledger store cache).1 := by
  cases isOnline with
  | false => rfl
  | true =>
    cases jscConnected with
    | false => rfl
    | true =>
      cases ledger with
      | none => rfl
      | some raws =>
        simp only [loadEntries, Bool.and_self, if_true]
        rcases hp : processLedger deps store cache (readEntries raws) with ⟨d1, c1⟩
        simp only [mergeEntries, hp]
        rcases hq : processLedger deps store c1 (readEntries raws) with ⟨d2, c2⟩
        have hrestart := processLedger_fst_restart deps store (readEntries raws) cache
        rw [hp] at hrestart
        simp only at hrestart
        rw [hq] at hrestart
        simp only at hrestart
        rw [hrestart]

theorem processLedger_map_hash (deps : LoadDeps) (locals : List LocalDiaryEntry) :
    ∀ (es : List JSCDiaryEntry) (cache : Option String),
      ((processLedger deps locals cache es).1).map (fun d => d.transactionHash)
        = es.map (fun e => e.transactionHash) := by
  intro es
  induction es with
  | nil => intro cache; rfl
  | cons e rest ih =>
    intro cache
    simp only [processLedger]
    cases hf : locals.find? (fun l => l.transactionHash == e.transactionHash) with
    | none =>
      rcases hr : processLedger deps locals cache rest with ⟨ds, cEnd⟩
      have := ih cache
      rw [hr] at this
      simp [hr, mkLedgerUI, this]
    | some l =>
      cases hl : l.encryptionData with
      | none =>
        rcases hr : processLedger deps locals cache rest with ⟨ds, cEnd⟩
        have := ih cache
        rw [hr] at this
        simp [hf, hl, hr, mkLedgerUI, this]
      | some ed =>
        simp [hf, hl, mkLedgerUI, decryptDataK]
        exact ih _

theorem readEntries_map_hash (raws : List RawChainEntry) :
    (readEntries raws).map (fun e => e.transactionHash)
      = List.replicate raws.length none := by
  induction raws with
  | nil => rfl
  | cons r rest ih => simp only [readEntries, List.map_cons, List.length_cons] at ih ⊢; simp [ih, List.replicate]

/-- C1 counterexample: a crash-recovery state in which the claim's hypothesis
holds (`staleLocal` has no ledger reference and its ciphertext "CIPHER"
equals `ledgerRaw`'s), together with a second local-only entry `otherLocal`
whose ciphertext "OTHER" matches no ledger entry.  `loadEntries` suppresses
BOTH (its dedup compares the `transactionHash` fields, which are `none` on
every ledger-read entry and on every local-only entry), returning only the
ledger entry, while the ciphertext-matching merge the claim describes keeps
`otherLocal`.  The suppression therefore does not match on ciphertext. -/
theorem C1_counterexample :
    staleLocal.transactionHash = none ∧
    edCipher.encryptedData = ledgerRaw.encryptedContent ∧
    (edOther.encryptedData == ledgerRaw.encryptedContent) = false ∧
    ((loadEntries deps₀ true true (some [ledgerRaw]) [staleLocal, otherLocal] none).1).map
        (fun u => u.id) = ["7"] ∧
    (List.insertionSort newestFirst (specMergeByCiphertext
        (processLedger deps₀ [staleLocal, otherLocal] none (readEntries [ledgerRaw])).1
        [staleLocal, otherLocal] (readEntries [ledgerRaw]))).map (fun u => u.id)
      = ["7", "11"] := by decide

/-- C1 amended: in the crash-recovery state the merged list does contain
exactly one entry for the confirmed content, but the stale LocalOnly
duplicate is suppressed by the equality of the `transactionHash` fields
(ledger-read entries carry `none` there, matching every local record without
a ledger reference) and not by ciphertext matching; consequently, whenever
the ledger returns at least one entry, EVERY local record without a
`transactionHash` is suppressed and the output consists of the ledger
entries alone. -/
theorem C1_theorem (deps : LoadDeps) (store : List LocalDiaryEntry)
    (raws : List RawChainEntry) (cache : Option String)
    (hne : raws ≠ []) (hhash : ∀ l ∈ store, l.transactionHash = none) :
    ((loadEntries deps true true (some raws) store cache).1).length = raws.length := by
  simp only [loadEntries, Bool.and_self, if_true]
  rcases hp : processLedger deps store cache (readEntries raws) with ⟨decrypted, c'⟩
  simp only [mergeEntries, hp]
  have hmap : decrypted.map (fun d => d.transactionHash)
      = List.replicate raws.length none := by
    have h1 := processLedger_map_hash deps store (readEntries raws) cache
    rw [hp] at h1
    simp only at h1
    rw [h1, readEntries_map_hash]
  have hlen : decrypted.length = raws.length := by
    have := congrArg List.length hmap
    simpa using this
  have hall : ∀ d ∈ decrypted, d.transactionHash = none := by
    intro d hd
    have hmem : d.transactionHash ∈ decrypted.map (fun d => d.transactionHash) :=
      List.mem_map_of_mem _ hd
    rw [hmap] at hmem
    exact List.eq_of_mem_replicate hmem
  have hdne : decrypted ≠ [] := by
    intro h
    rw [h] at hlen
    exact hne (List.eq_nil_of_length_eq_zero hlen.symm)
  have hfilter : store.filter (fun l =>
      (decrypted.find? (fun b => b.transactionHash == l.transactionHash)).isNone) = [] := by
    rw [List.filter_eq_nil_iff]
    intro l hl
    rcases List.exists_mem_of_ne_nil decrypted hdne with ⟨d, hd⟩
    have hfind : (decrypted.find? (fun b => b.transactionHash == l.transactionHash)).isSome := by
      rw [List.find?_isSome]
      exact ⟨d, hd, by simp [hall d hd, hhash l hl]⟩
    simp only [Option.isNone_iff_eq_none, Bool.not_eq_true]
    intro hcontra
    rw [hcontra] at hfind
    exact absurd hfind (by simp)
  rw [hfilter]
  simp only [List.map_nil, List.append_nil]
  have := (List.perm_insertionSort newestFirst decrypted).length_eq
  rw [this, hlen]

/-! ## Claim C8: ordering -/

/-- C8 counterexample: two ledger entries written the same day (timestamps
1736467201 s and 1736467500 s, both mapping to date "2025-01-10") come back
from `loadEntries` in ascending ledger order — the OLDER one first — because
the merge sorts only by the day-granularity `date` string and the sort is
stable.  The claim's "always returned newest-createdAt-first" fails. -/
theorem C8_counterexample :
    rawOld.timestamp < rawNew.timestamp ∧
    (readEntries [rawOld, rawNew]).map (fun e => isoDate e.timestamp)
      = ["2025-01-10", "2025-01-10"] ∧
    ((loadEntries deps₀ true true (some [rawOld, rawNew]) [] none).1).map (fun u => u.id)
      = ["1", "2"] := by decide

/-- C8 amended: `getEntries` is newest-first for any store built by saves in
nondecreasing `createdAt` order — `saveEntry` prepends, so an insert whose
`createdAt` is at least every stored entry's keeps the list sorted by
descending `createdAt`, and two entries with equal `createdAt` keep the
first-inserted one later; but the merged list of `loadEntries` is sorted only
by the day-granularity `date` string (stably), so within one day
ledger-derived entries stay in ascending ledger order rather than
newest-`createdAt`-first. -/
theorem C8_theorem :
    (∀ (store : List LocalDiaryEntry) (e : LocalDiaryEntry),
      List.Pairwise (fun a b => b.createdAt ≤ a.createdAt) store →
      (∀ x ∈ store, x.createdAt ≤ e.createdAt) →
      List.Pairwise (fun a b => b.createdAt ≤ a.createdAt) (getEntries (saveEntry store e))) ∧
    (∀ (deps : LoadDeps) (store : List LocalDiaryEntry) (raws : List RawChainEntry)
      (cache : Option String),
      List.Sorted newestFirst (mergeEntries deps store (readEntries raws) cache).1) := by
  constructor
  · intro store e hp hall
    exact List.Pairwise.cons (fun b hb => hall b hb) hp
  · intro deps store raws cache
    rcases hp : processLedger deps store cache (readEntries raws) with ⟨decrypted, c'⟩
    simp only [mergeEntries, hp]
    exact List.sorted_insertionSort newestFirst _

/-! ## Claim C10: the ledger-reference invariant -/

/-- C10 counterexample: the single entry `loadEntries` returns for a ledger
read has `blockchainStored = true` but `transactionHash = none`
(`readEntries` never sets the hash), so the claimed "ledger reference iff
Confirmed" equivalence fails on entries read back from the ledger. -/
theorem C10_counterexample :
    ((loadEntries deps₀ true true (some [ledgerRaw]) [] none).1).map
      (fun u => (u.blockchainStored, u.transactionHash)) = [(true, none)] := by decide

theorem mem_updateEntry {x : LocalDiaryEntry} (entryId : String)
    (f : LocalDiaryEntry → LocalDiaryEntry) :
    ∀ store : List LocalDiaryEntry, x ∈ updateEntry store entryId f →
      x ∈ store ∨ ∃ y ∈ store, x = f y := by
  intro store
  induction store with
  | nil => intro h; exact absurd h (by simp [updateEntry])
  | cons e rest ih =>
    intro h
    unfold updateEntry at h
    by_cases he : e.id = entryId
    · rw [if_pos he] at h
      rcases List.mem_cons.mp h with h1 | h1
      · exact Or.inr ⟨e, by simp, h1⟩
      · exact Or.inl (List.mem_cons_of_mem _ h1)
    · rw [if_neg he] at h
      rcases List.mem_cons.mp h with h1 | h1
      · exact Or.inl (h1 ▸ List.mem_cons_self _ _)
      · rcases ih h1 with h2 | ⟨y, hy, hxy⟩
        · exact Or.inl (List.mem_cons_of_mem _ h2)
        · exact Or.inr ⟨y, List.mem_cons_of_mem _ hy, hxy⟩

/-- C10 amended: the "transactionHash iff blockchainStored" invariant is
preserved on the local store by `submitEntry` (both persisted shapes set the
two fields consistently) and by `markAsSynced` (which sets both); but it does
not extend to entries read back from the ledger: `readEntries` marks nothing
with a `transactionHash`, so every ledger-derived entry shown by
`loadEntries` has `blockchainStored = true` with no hash. -/
theorem C10_theorem :
    (∀ (isConnected isOnline : Bool) (encOutcome : Except String EncryptionData)
      (writeOutcome : Except String String) (store : List LocalDiaryEntry)
      (content : String) (sentiment : Sentiment) (nowMs : Nat),
      (∀ x ∈ store, hashInvariant x) →
      ∀ x ∈ (submitEntry isConnected isOnline encOutcome writeOutcome store content
          sentiment nowMs).2, hashInvariant x) ∧
    (∀ (store : List LocalDiaryEntry) (entryId h : String) (now : Nat),
      (∀ x ∈ store, hashInvariant x) →
      ∀ x ∈ markAsSynced store entryId h now, hashInvariant x) ∧
    (∀ raws : List RawChainEntry, ∀ e ∈ readEntries raws, e.transactionHash = none) := by
  refine ⟨?_, ?_, ?_⟩
  · intro ic io encO writeO store content s n hstore x hx
    unfold submitEntry at hx
    split at hx
    · exact hstore x hx
    · split at hx
      · exact hstore x hx
      · split at hx
        · unfold submitEntryCatch at hx
          split at hx
          · exact hstore x hx
          · rcases List.mem_cons.mp hx with h1 | h1
            · subst h1; rfl
            · exact hstore x h1
        · split at hx
          · unfold submitEntryCatch at hx
            split at hx
            · exact hstore x hx
            · rcases List.mem_cons.mp hx with h1 | h1
              · subst h1; rfl
              · exact hstore x h1
          · rcases List.mem_cons.mp hx with h1 | h1
            · subst h1; rfl
            · exact hstore x h1
  · intro store entryId h now hstore x hx
    rcases mem_updateEntry entryId _ store hx with h1 | ⟨y, hy, hxy⟩
    · exact hstore x h1
    · subst hxy; rfl
  · intro raws e he
    simp only [readEntries, List.mem_map] at he
    rcases he with ⟨r, _, hr⟩
    rw [← hr]

/-! ## Witnesses -/

/-- Witness for C1: with the single stale duplicate and the single matching
ledger entry, `loadEntries` returns exactly one entry. -/
theorem C1_witness :
    ((loadEntries deps₀ true true (some [ledgerRaw]) [staleLocal] none).1).length = 1 :=
  C1_theorem deps₀ [staleLocal] [ledgerRaw] none (by decide) (by decide)

/-- Witness for C2 at a concrete non-rejection ledger failure. -/
theorem C2_witness :
    (submitEntry true true (Except.ok edCipher)
        (Except.error "Failed to submit entry: timeout") [] "feeling okay"
        Sentiment.neutral 0).2
      = [{ id := toString 0, date := isoDate 0, content := "feeling okay",
           sentiment := Sentiment.neutral, encrypted := true, transactionHash := none,
           blockchainStored := false, encryptionData := none, createdAt := 0,
           syncedAt := none }] ∧
    (submitEntry true true (Except.ok edCipher)
        (Except.error "Failed to submit entry: timeout") [] "feeling okay"
        Sentiment.neutral 0).1.success = true ∧
    (submitEntry true false (Except.ok edCipher)
        (Except.error "Failed to submit entry: timeout") [] "feeling okay"
        Sentiment.neutral 0).2 = [] :=
  C2_theorem edCipher "Failed to submit entry: timeout" [] "feeling okay"
    Sentiment.neutral 0 (by decide) (by decide)

/-- Witness for C3 at the concrete cancelled-transaction message. -/
theorem C3_witness :
    submitEntry true true (Except.ok edCipher)
        (Except.error "Transaction was cancelled by user") [staleLocal] "hello"
        Sentiment.neutral 5
      = ({ success := false, error := some "Transaction was cancelled by user" },
         [staleLocal]) ∧
    (∀ writeO, submitEntry true true
        (Except.error "Transaction was cancelled by user") writeO [staleLocal] "hello"
        Sentiment.neutral 5
      = ({ success := false, error := some "Transaction was cancelled by user" },
         [staleLocal])) ∧
    (∀ msg' : String, strIncludes msg' "user rejected" = false →
      strIncludes msg' "cancelled" = false →
      (submitEntry true true (Except.ok edCipher) (Except.error msg') [staleLocal] "hello"
          Sentiment.neutral 5).1
        ≠ { success := false, error := some "Transaction was cancelled by user" }) :=
  C3_theorem edCipher "Transaction was cancelled by user" [staleLocal] "hello"
    Sentiment.neutral 5 (by decide)

/-- Witness for C6: the XOR round trip on "hi" under the key derived from
signature "a", and the AES framing round trip with a trivial byte-preserving
primitive. -/
theorem C6_witness :
    xorDecrypt [87, 70, 107, 61] (createSimpleKey [97]) = some [104, 105] ∧
    symmetricDecrypt (fun _ _ c => Except.ok c) (List.replicate 32 48)
        (symmetricEncrypt (fun _ _ m => m) (List.replicate 32 48)
          (List.replicate 12 0) [1, 2, 3])
      = Except.ok [1, 2, 3] :=
  ⟨C6_theorem.1 [104, 105] [97] [87, 70, 107, 61] (by decide),
   C6_theorem.2 (fun _ _ m => m) (fun _ _ c => Except.ok c) (List.replicate 32 48)
     (List.replicate 12 0) [1, 2, 3] (by decide) (by decide) (by decide) rfl⟩

/-- Witness for C7: the AES error paths at concrete inputs (a valid base64
ciphertext of 12 zero bytes with an authentication-failing primitive, and a
malformed base64 input), and the XOR no-integrity decrypt at "SFk=". -/
theorem C7_witness :
    symmetricDecrypt (fun _ _ _ => Except.error AesFailure.operationError) []
        (b64encode (List.replicate 12 0))
      = Except.error "Decryption failed: Wrong key or corrupted data" ∧
    symmetricDecrypt (fun _ _ _ => Except.error AesFailure.operationError) [] [0]
      = Except.error "Symmetric decryption failed: Invalid base64 encrypted data" ∧
    xorDecrypt [83, 70, 107, 61] (createSimpleKey [97])
      = some (xorWithKey [72, 89] (createSimpleKey [97])) :=
  ⟨C7_theorem.1 (fun _ _ _ => Except.error AesFailure.operationError) []
      (b64encode (List.replicate 12 0)) (List.replicate 12 0) (by decide) (by decide) rfl,
   C7_theorem.2.1 (fun _ _ _ => Except.error AesFailure.operationError) [] [0] (by decide),
   C7_theorem.2.2.2 [83, 70, 107, 61] (createSimpleKey [97]) [72, 89] (by decide)⟩

/-- Witness for C8: a save of a newer entry onto a sorted store stays sorted,
and a concrete merge output is sorted newest-date-first. -/
theorem C8_witness :
    List.Pairwise (fun a b => b.createdAt ≤ a.createdAt)
      (getEntries (saveEntry [staleLocal] otherLocal)) ∧
    List.Sorted newestFirst (mergeEntries deps₀ [] (readEntries [rawOld]) none).1 :=
  ⟨C8_theorem.1 [staleLocal] otherLocal (by decide) (by decide),
   C8_theorem.2 deps₀ [] [rawOld] none⟩

/-- Witness for C10: the invariant holds for the entry persisted by a
successful `submitEntry`, for the entry updated by `markAsSynced`, and a
concrete ledger-read entry has no `transactionHash`. -/
theorem C10_witness :
    hashInvariant
      { id := toString 0, date := isoDate 0, content := "note",
        sentiment := Sentiment.neutral, encrypted := true,
        transactionHash := some "0xh", blockchainStored := true,
        encryptionData := some edCipher, createdAt := 0, syncedAt := some 0 } ∧
    hashInvariant
      { staleLocal with blockchainStored := true, transactionHash := some "0xh",
                        syncedAt := some 5 } ∧
    ({ id := toString (7 : Nat), user := "0xowner", encryptedContent := "CIPHER",
       sentiment := Sentiment.neutral, timestamp := 1736467200000,
       transactionHash := none } : JSCDiaryEntry).transactionHash = none :=
  ⟨C10_theorem.1 true true (Except.ok edCipher) (Except.ok "0xh") [] "note"
      Sentiment.neutral 0 (by simp) _ (by decide),
   C10_theorem.2.1 [staleLocal] "10" "0xh" 5 (by decide) _ (by decide),
   C10_theorem.2.2 [ledgerRaw] _ (by decide)⟩

end MDW
